import Mathlib

/-!
# Verification of the rabbit-message-replayer binary decoder and pipeline

Shallow embedding of the Go sources of `rabbit-message-replayer`:

* `RabbitBlob` with its primitive readers and the `ProcessMessages` scan loop
  (rabbit_blob revision in the repository),
* `RabbitMessage` with `IsPush` and `GetQueueName` (rabbit_msg.go),
* `ReadRabbitFile` / `RabbitFile` (rabbit_file.go),
* `Statistic` / `Statistics` (statistic.go),
* the parser-worker loop `fileHandler` and the coordinator aggregation (main.go).

Modelling conventions:
* Byte buffers are `List Nat` (each entry one byte); Go slice expressions
  `data[pos:pos+n]` are bounds-checked against the buffer length, and a Go
  runtime panic / `errors.Raise` unwind is an `Except.error`.
* Go `float64` statistic accumulators are modelled as exact integer arithmetic
  (`Int`): the program only ever adds integral message lengths, which float64
  represents exactly in the reachable range.  Averages divide in `ℚ`.
* The scan loop recurses on an explicit fuel of `data.length + 1`; every
  completed iteration advances the cursor by at least one byte while the loop
  only runs while `pos < data.length`, so the fuel is never exhausted.
* The per-goroutine panic of an unrecovered `errors.Raise` is modelled by the
  worker loop aborting with the error (there is no `recover` in `fileHandler`
  nor in `RabbitFile.ProcessMessages`).
-/

/-- Generic first-argument-is-a-prefix test on lists (the comparison used by
Go `bytes.Index` / `strings.HasPrefix`). -/
def seqIsPre {α : Type} [DecidableEq α] : List α → List α → Bool
  | [], _ => true
  | _ :: _, [] => false
  | a :: as, b :: bs => a = b && seqIsPre as bs

/-- Embedding of Go `bytes.Index(hay, needle)`: index of the first occurrence
of `needle` in `hay`, `none` when absent (Go returns `-1`). -/
def bytesIndex {α : Type} [DecidableEq α] (needle : List α) : List α → Option Nat
  | [] => if seqIsPre needle [] then some 0 else none
  | a :: t =>
    if seqIsPre needle (a :: t) then some 0
    else Option.map (fun i => i + 1) (bytesIndex needle t)

/-- Big-endian value of a byte list (`binary.BigEndian.Uint32/Uint64` on the
window actually consumed). -/
def beVal (l : List Nat) : Nat := l.foldl (fun acc b => acc * 256 + b) 0

/-- The error taxonomy of the decoder: Go slice-bounds panics, `AssertByte`
raises, the index-file multi-blob raise, and a missing `"exchange"` needle in
`GetQueueName` (surfaced through `must`). -/
inductive ScanErr where
  | outOfBounds : ScanErr
  | unexpectedByte (want got pos : Nat) : ScanErr
  | structureError : ScanErr
  | queueNameNotFound (pos : Nat) : ScanErr
deriving DecidableEq

/-- `RabbitBlob` from the source: a byte buffer, a cursor, the source label and
the framing flag (`useLen`).  The display-only `no` field is omitted. -/
structure RabbitBlob where
  data : List Nat
  pos : Nat
  name : String
  useLen : Bool
deriving DecidableEq

namespace RabbitBlob

/-- `ReadBytes`: `result = rb.data[rb.pos : rb.pos+len]; rb.pos += len`.
A slice beyond the buffer is a Go panic, hence `outOfBounds`. -/
def ReadBytes (rb : RabbitBlob) (len : Nat) : Except ScanErr (List Nat × RabbitBlob) :=
  if rb.pos + len ≤ rb.data.length then
    .ok ((rb.data.drop rb.pos).take len, { rb with pos := rb.pos + len })
  else .error .outOfBounds

/-- `ReadUInt32`: the source slices EIGHT bytes (`rb.data[rb.pos : rb.pos+8]`),
hands them to `binary.BigEndian.Uint32` (which uses only the first four) and
advances the cursor by four.  The eight-byte slice is what gets bounds-checked. -/
def ReadUInt32 (rb : RabbitBlob) : Except ScanErr (Nat × RabbitBlob) :=
  if rb.pos + 8 ≤ rb.data.length then
    .ok (beVal ((rb.data.drop rb.pos).take 4), { rb with pos := rb.pos + 4 })
  else .error .outOfBounds

/-- `ReadUInt64`: big-endian eight-byte read, cursor advances by eight. -/
def ReadUInt64 (rb : RabbitBlob) : Except ScanErr (Nat × RabbitBlob) :=
  if rb.pos + 8 ≤ rb.data.length then
    .ok (beVal ((rb.data.drop rb.pos).take 8), { rb with pos := rb.pos + 8 })
  else .error .outOfBounds

/-- `AssertByte`: read one byte; on mismatch the source rewinds the cursor and
raises, so the reported offset is the offset of the offending byte. -/
def AssertByte (rb : RabbitBlob) (mustBe : Nat) : Except ScanErr RabbitBlob :=
  match rb.ReadBytes 1 with
  | .error e => .error e
  | .ok (bs, rb1) =>
    if bs.getD 0 0 = mustBe then .ok rb1
    else .error (.unexpectedByte mustBe (bs.getD 0 0) rb.pos)

end RabbitBlob

/-- The sentinel `"rabbit_framing_amqp_0_9_1"` as bytes. -/
def rabbitHeaderBytes : List Nat :=
  [114, 97, 98, 98, 105, 116, 95, 102, 114, 97, 109, 105, 110, 103,
   95, 97, 109, 113, 112, 95, 48, 95, 57, 95, 49]

/-- `lenHeader = len(rabbitHeaderBytes)`. -/
def lenHeader : Nat := rabbitHeaderBytes.length

/-- The `"exchange"` needle used by `GetQueueName`. -/
def exchangeBytes : List Nat := [101, 120, 99, 104, 97, 110, 103, 101]

/-- `RabbitMessage` from rabbit_msg.go (queue names are Go strings, i.e. byte
sequences). -/
structure RabbitMessage where
  Queue : List Nat
  Data : List Nat
  Length : Nat
  Position : Nat
deriving DecidableEq

namespace RabbitMessage

/-- `IsPush` is `msg.Data[0] != 'i'`; indexing an empty body is a Go runtime
panic, modelled as `none`. -/
def IsPush (msg : RabbitMessage) : Option Bool :=
  match msg.Data with
  | [] => none
  | b :: _ => some (decide (b ≠ 105))

/-- `GetQueueName`: on a fresh blob over `data[msg.Position:]`, find
`"exchange"`, skip 9 bytes, read a `u32` length (re-read after 6 more bytes if
it is zero) and take that many bytes as the queue name. -/
def GetQueueName (msg : RabbitMessage) (data : List Nat) : Except ScanErr (List Nat) :=
  let bdata := data.drop msg.Position
  match bytesIndex exchangeBytes bdata with
  | none => .error (.queueNameNotFound msg.Position)
  | some i =>
    match RabbitBlob.ReadUInt32 { data := bdata, pos := i + 9, name := "", useLen := false } with
    | .error e => .error e
    | .ok (len, b1) =>
      if len = 0 then
        match RabbitBlob.ReadUInt32 { b1 with pos := b1.pos + 6 } with
        | .error e => .error e
        | .ok (len2, b2) =>
          match b2.ReadBytes len2 with
          | .error e => .error e
          | .ok (d, _) => .ok d
      else
        match b1.ReadBytes len with
        | .error e => .error e
        | .ok (d, _) => .ok d

end RabbitMessage

/-! ## The `ProcessMessages` scan loop -/

namespace RabbitBlob

/-- Marker search plus entry: `bytes.Index(blob.data[blob.pos:], header)`,
then `blob.pos += msgPos + lenHeader`; `none` when the marker is absent. -/
def findAndEnter (b : RabbitBlob) : Option RabbitBlob :=
  match bytesIndex rabbitHeaderBytes (b.data.drop b.pos) with
  | none => none
  | some msgPos => some { b with pos := b.pos + msgPos + lenHeader }

/-- `AssertByte('l')` followed by `nbBlocks := ReadUInt32()`. -/
def readHdr (b : RabbitBlob) : Except ScanErr (Nat × RabbitBlob) :=
  match b.AssertByte 108 with
  | .error e => .error e
  | .ok b1 => b1.ReadUInt32

/-- The single-block arm: `AssertByte('m')`, `msg.Length = ReadUInt32()`,
`msg.Data = ReadBytes(msg.Length)`. -/
def readSingle (b : RabbitBlob) : Except ScanErr (Nat × List Nat × RabbitBlob) :=
  match b.AssertByte 109 with
  | .error e => .error e
  | .ok b1 =>
    match b1.ReadUInt32 with
    | .error e => .error e
    | .ok (len, b2) =>
      match b2.ReadBytes len with
      | .error e => .error e
      | .ok (d, b3) => .ok (len, d, b3)

/-- The block-reading loop of the multi-block arm: `n` repetitions of
`AssertByte('m')`, `blobLen := ReadUInt32()`, `ReadBytes(blobLen)`, collected
in encounter order. -/
def readBlocks (b : RabbitBlob) : Nat → Except ScanErr (List (List Nat) × RabbitBlob)
  | 0 => .ok ([], b)
  | n + 1 =>
    match b.AssertByte 109 with
    | .error e => .error e
    | .ok b1 =>
      match b1.ReadUInt32 with
      | .error e => .error e
      | .ok (len, b2) =>
        match b2.ReadBytes len with
        | .error e => .error e
        | .ok (blk, b3) =>
          match readBlocks b3 n with
          | .error e => .error e
          | .ok (blks, b4) => .ok (blk :: blks, b4)

end RabbitBlob

/-- The reassembly loop of the source, verbatim:
`for i := range blocks { msg.Data = append(msg.Data, blocks[nbBlocks-i-1]...) }`. -/
def appendReversedN (nbBlocks : Nat) (blocks : List (List Nat)) : List Nat :=
  (List.range nbBlocks).foldl (fun acc i => acc ++ blocks.getD (nbBlocks - i - 1) []) []

namespace RabbitBlob

/-- One record of the scan-loop body, operating on `b` (the inner blob in
framed mode, the file blob itself in unframed mode).  `outerUseLen` is
`rb.useLen` of the *outer* blob — the source checks `rb.useLen`, not
`blob.useLen`, in the multi-block arm.  `msgLen0` is the `msg.Length`
prevailing before the record body (the outer `u64` length in framed mode,
zero in unframed mode); `pos` is `msg.Position` and `outer` the full file
bytes handed to `GetQueueName`.  `ok none` is the `break` on a missing
marker. -/
def parseRecord (outerUseLen : Bool) (b : RabbitBlob) (msgLen0 pos : Nat)
    (outer : List Nat) : Except ScanErr (Option (RabbitMessage × RabbitBlob)) :=
  match b.findAndEnter with
  | none => .ok none
  | some b1 =>
    match b1.readHdr with
    | .error e => .error e
    | .ok (nbBlocks, b2) =>
      if nbBlocks = 1 then
        match b2.readSingle with
        | .error e => .error e
        | .ok (len, d, b3) =>
          match RabbitMessage.GetQueueName
              { Queue := [], Data := d, Length := len, Position := pos } outer with
          | .error e => .error e
          | .ok q => .ok (some ({ Queue := q, Data := d, Length := len, Position := pos }, b3))
      else
        if outerUseLen = false then .error .structureError
        else
          match b2.readBlocks nbBlocks with
          | .error e => .error e
          | .ok (blks, b3) =>
            match RabbitMessage.GetQueueName
                { Queue := [], Data := appendReversedN nbBlocks blks,
                  Length := msgLen0, Position := pos } outer with
            | .error e => .error e
            | .ok q =>
              .ok (some ({ Queue := q, Data := appendReversedN nbBlocks blks,
                           Length := msgLen0, Position := pos }, b3))

/-- One iteration of the `for rb.pos < len(rb.data)` loop.  In framed mode the
outer blob reads the `u64` length, slices the inner blob, asserts the trailing
`0xFF`, and the record is parsed inside the inner view (whose own `useLen` is
left at its zero value, exactly as in the source); in unframed mode the record
is parsed in place, advancing the file cursor. -/
def scanStep (rb : RabbitBlob) : Except ScanErr (Option (RabbitMessage × RabbitBlob)) :=
  if rb.useLen then
    match rb.ReadUInt64 with
    | .error e => .error e
    | .ok (len64, rb1) =>
      match rb1.ReadBytes len64 with
      | .error e => .error e
      | .ok (inner, rb2) =>
        match rb2.AssertByte 255 with
        | .error e => .error e
        | .ok rb3 =>
          match parseRecord true { data := inner, pos := 0, name := rb.name, useLen := false }
              len64 rb.pos rb.data with
          | .error e => .error e
          | .ok none => .ok none
          | .ok (some (msg, _)) => .ok (some (msg, rb3))
  else
    parseRecord false rb 0 rb.pos rb.data

/-- The scan loop on explicit fuel.  Each completed iteration strictly
advances the cursor (by at least `lenHeader + 1` bytes in unframed mode and at
least 9 bytes in framed mode) while the loop only continues when
`pos < data.length`, so `data.length + 1` units of fuel are never exhausted. -/
def scanLoop : Nat → RabbitBlob → Except ScanErr (List RabbitMessage)
  | 0, _ => .ok []
  | fuel + 1, rb =>
    if rb.pos < rb.data.length then
      match scanStep rb with
      | .error e => .error e
      | .ok none => .ok []
      | .ok (some (msg, rb1)) =>
        match scanLoop fuel rb1 with
        | .error e => .error e
        | .ok msgs => .ok (msg :: msgs)
    else .ok []

/-- `ProcessMessages`: run the scan loop over the whole buffer.  The deferred
`errors.Trap`/`errors.Raise` pair re-raises any trapped error with the file
name prepended to the message; the error value itself is unchanged, so in the
model the scan result is the re-raised error. -/
def ProcessMessages (rb : RabbitBlob) : Except ScanErr (List RabbitMessage) :=
  scanLoop (rb.data.length + 1) rb

end RabbitBlob

/-! ## File parser (rabbit_file.go) -/

/-- Go `strings.HasSuffix(s, suffix)`:
`len(s) >= len(suffix) && s[len(s)-len(suffix):] == suffix`. -/
def hasSuffixGo (s suffix : List Char) : Bool :=
  decide (suffix.length ≤ s.length) && decide (s.drop (s.length - suffix.length) = suffix)

/-- Go `path/filepath.Ext`: walk backwards from the end of the last
slash-separated element; the extension starts at the first `'.'` found. -/
def extLoop : List Char → List Char → List Char
  | [], _ => []
  | c :: rest, acc =>
    if c = '/' then []
    else if c = '.' then '.' :: acc
    else extLoop rest (c :: acc)

/-- `filepath.Ext(path)`. -/
def extGo (path : List Char) : List Char := extLoop path.reverse []

/-- Go `strings.TrimPrefix(s, pre)`. -/
def trimPrefixGo (s pre : List Char) : List Char :=
  if seqIsPre pre s then s.drop pre.length else s

/-- The characters of `".rdq"`. -/
def rdqSuffix : List Char := ['.', 'r', 'd', 'q']

/-- The characters of `".idx"`. -/
def idxSuffix : List Char := ['.', 'i', 'd', 'x']

/-- The framing flag computed by `ReadRabbitFile`:
`useLen: strings.HasSuffix(fileName, ".rdq")`. -/
def useLenOf (fileName : List Char) : Bool := hasSuffixGo fileName rdqSuffix

/-- Go `float64` statistics accumulator (statistic.go), with the float fields
modelled as exact integers (see the header note). -/
structure Statistic where
  Name : String
  count : Int
  messages : Int
  sum : Int
  min : Option Int
  max : Option Int
deriving DecidableEq

namespace Statistic

/-- `Sum`. -/
def Sum (s : Statistic) : Int := s.sum

/-- `Count`: `iif(s.count <= 1, 1, s.count)`. -/
def Count (s : Statistic) : Int := if s.count ≤ 1 then 1 else s.count

/-- `Messages`. -/
def Messages (s : Statistic) : Int := s.messages

/-- `Minimum`: `s.sum` while `min` is nil. -/
def Minimum (s : Statistic) : Int := s.min.getD s.sum

/-- `Maximum`: `s.sum` while `max` is nil. -/
def Maximum (s : Statistic) : Int := s.max.getD s.sum

/-- `Average`: `s.sum / float64(s.Count())`, the float division taken in `ℚ`. -/
def Average (s : Statistic) : ℚ := (s.sum : ℚ) / (s.Count : ℚ)

/-- `Join`: monoidal-style fold of `other` into `s`.  Both bound updates test
the receiver's *original* `count`, and the sums/counts are added afterwards
(`count` grows by `other.Count()`, the clamped accessor). -/
def Join (s other : Statistic) : Statistic :=
  { s with
    min := if s.count = 0 ∨ other.Minimum < s.Minimum then some other.Minimum else s.min,
    max := if s.count = 0 ∨ other.Maximum > s.Maximum then some other.Maximum else s.max,
    sum := s.sum + other.sum,
    count := s.count + other.Count,
    messages := s.messages + other.Messages }

/-- `Add`: fold in a one-value statistic `{sum: value, messages: 1, count: 1}`. -/
def Add (s : Statistic) (value : Int) : Statistic :=
  s.Join { Name := "", count := 1, messages := 1, sum := value, min := none, max := none }

end Statistic

/-- `Statistics.AddStatistic`: look the name up in the table (the Go index map
is represented by name lookup in the insertion-ordered list), create a fresh
zero entry on a miss, and `Join` the argument into the entry. -/
def addStatistic (cum : List Statistic) (s : Statistic) : List Statistic :=
  if cum.any (fun t => t.Name = s.Name) then
    cum.map (fun t => if t.Name = s.Name then t.Join s else t)
  else
    cum ++ [(Statistic.Join
      { Name := s.Name, count := 0, messages := 0, sum := 0, min := none, max := none } s)]

/-- `RabbitFile` (rabbit_file.go): the blob plus the extracted messages and the
file-level statistic.  The per-queue table and the regex filter are not needed
by the claims below; the modelled driver passes a nil filter. -/
structure RabbitFile where
  blob : RabbitBlob
  Messages : List RabbitMessage
  Stat : Statistic
deriving DecidableEq

/-- `ReadRabbitFile` minus the I/O: wrap the bytes in a blob whose framing flag
is `strings.HasSuffix(fileName, ".rdq")` and an empty file-level statistic
named after the file. -/
def ReadRabbitFile (fileName : String) (contents : List Nat) : RabbitFile :=
  { blob := { data := contents, pos := 0, name := fileName, useLen := useLenOf fileName.data },
    Messages := [],
    Stat := { Name := fileName, count := 0, messages := 0, sum := 0, min := none, max := none } }

namespace RabbitFile

/-- `Name`. -/
def Name (rf : RabbitFile) : String := rf.blob.name

/-- `Type` (spelt `Type'` since `Type` is a Lean keyword):
`strings.TrimPrefix(filepath.Ext(rf.Name()), ".")`. -/
def Type' (rf : RabbitFile) : List Char := trimPrefixGo (extGo rf.Name.data) ['.']

/-- `Count`: number of extracted messages. -/
def Count (rf : RabbitFile) : Nat := rf.Messages.length

/-- `RabbitFile.ProcessMessages` with a nil handler and a nil regex filter:
every scanned message is appended and `Stat.Add(msg.Length)` applied.  The
scan's unwind is not recovered here, so an error aborts the call. -/
def ProcessMessages (rf : RabbitFile) : Except ScanErr RabbitFile :=
  match rf.blob.ProcessMessages with
  | .error e => .error e
  | .ok msgs =>
    .ok { rf with
      Messages := rf.Messages ++ msgs,
      Stat := msgs.foldl (fun st m => st.Add (m.Length : Int)) rf.Stat }

end RabbitFile

/-! ## Worker loop and coordinator (main.go) -/

/-- The parser-worker loop `fileHandler`, sequentialized over its job list.
There is no `recover` between the scan and the goroutine boundary, so an
`errors.Raise` escaping `ProcessMessages` aborts the whole worker (and with it
the process): no report is produced for the failing file nor for any file
still queued behind it. -/
def fileHandler (jobs : List (String × List Nat)) : Except ScanErr (List RabbitFile) :=
  match jobs with
  | [] => .ok []
  | (fileName, contents) :: rest =>
    match (ReadRabbitFile fileName contents).ProcessMessages with
    | .error e => .error e
    | .ok rf =>
      match fileHandler rest with
      | .error e => .error e
      | .ok rfs => .ok (rf :: rfs)

/-- The coordinator's file-level aggregation: for each received report with
`file.Count() > 0`, `fileStat.AddStatistic(file.Stat)`. -/
def coordinate (jobs : List (String × List Nat)) : Except ScanErr (List Statistic) :=
  match fileHandler jobs with
  | .error e => .error e
  | .ok rfs =>
    .ok (rfs.foldl (fun acc rf => if rf.Count > 0 then addStatistic acc rf.Stat else acc) [])

/-! ## Concrete inputs -/

/-- A well-formed single-block framed (`.rdq`) file: `u64 = 57`, inner blob of
marker, `'l'`, one block `'m' u32=5 "HELLO"`, an embedded
`"exchange" pad u32=2 "qa"` region (plus two pad bytes so the eight-byte `u32`
slice fits), trailing `0xFF`. -/
def fileG : List Nat :=
  [0, 0, 0, 0, 0, 0, 0, 57] ++ rabbitHeaderBytes ++
  [108, 0, 0, 0, 1, 109, 0, 0, 0, 5, 72, 69, 76, 76, 79] ++ exchangeBytes ++
  [0, 0, 0, 0, 2, 113, 97, 0, 0] ++ [255]

/-- `fileG` with the trailing marker corrupted to `0xFE`. -/
def fileC : List Nat :=
  [0, 0, 0, 0, 0, 0, 0, 57] ++ rabbitHeaderBytes ++
  [108, 0, 0, 0, 1, 109, 0, 0, 0, 5, 72, 69, 76, 76, 79] ++ exchangeBytes ++
  [0, 0, 0, 0, 2, 113, 97, 0, 0] ++ [254]

/-- A framed file whose record is reassembled from two blocks, `"A"` then
`"B"`: `u64 = 59`, marker, `'l'`, `u32 = 2`, `'m' u32=1 'A'`, `'m' u32=1 'B'`,
the embedded queue region, trailing `0xFF`. -/
def file5 : List Nat :=
  [0, 0, 0, 0, 0, 0, 0, 59] ++ rabbitHeaderBytes ++
  [108, 0, 0, 0, 2, 109, 0, 0, 0, 1, 65, 109, 0, 0, 0, 1, 66] ++ exchangeBytes ++
  [0, 0, 0, 0, 2, 113, 97, 0, 0] ++ [255]

/-- An unframed (`.idx`) file whose record declares two blocks:
marker, `'l'`, `u32 = 2`, four pad bytes (so the eight-byte `u32` slice fits). -/
def idx4 : List Nat := rabbitHeaderBytes ++ [108, 0, 0, 0, 2, 0, 0, 0, 0]

/-- The message extracted from `fileG`. -/
def msgG : RabbitMessage :=
  { Queue := [113, 97], Data := [72, 69, 76, 76, 79], Length := 5, Position := 0 }

/-- The message extracted from `file5`. -/
def msg5 : RabbitMessage :=
  { Queue := [113, 97], Data := [66, 65], Length := 59, Position := 0 }

example : (ReadRabbitFile "g.rdq" fileG).blob.ProcessMessages = .ok [msgG] := rfl
example : (ReadRabbitFile "c.rdq" fileC).blob.ProcessMessages
    = .error (.unexpectedByte 255 254 65) := rfl
example : (ReadRabbitFile "f.rdq" file5).blob.ProcessMessages = .ok [msg5] := rfl
example : (ReadRabbitFile "i.idx" idx4).blob.ProcessMessages = .error .structureError := rfl

/-! ## Helper lemmas -/

/-- A successful `ReadBytes` returns exactly the requested number of bytes. -/
theorem RabbitBlob.ReadBytes_length (rb : RabbitBlob) (n : Nat) (d : List Nat)
    (rb1 : RabbitBlob) (h : rb.ReadBytes n = .ok (d, rb1)) : d.length = n := by
  unfold RabbitBlob.ReadBytes at h
  split at h
  · rename_i hle
    injection h with h1
    injection h1 with hfst _
    subst hfst
    simp [List.length_take]
    omega
  · exact absurd h (by simp)

/-- A successful `readSingle` returns a body of exactly the announced length. -/
theorem RabbitBlob.readSingle_length (b : RabbitBlob) (len : Nat) (d : List Nat)
    (b3 : RabbitBlob) (h : b.readSingle = .ok (len, d, b3)) : d.length = len := by
  unfold RabbitBlob.readSingle at h
  split at h
  · exact absurd h (by simp)
  · split at h
    · exact absurd h (by simp)
    · split at h
      · exact absurd h (by simp)
      · rename_i b2 hr
        simp only [Except.ok.injEq, Prod.mk.injEq] at h
        obtain ⟨h1, h2, h3⟩ := h
        subst h1
        subst h2
        exact RabbitBlob.ReadBytes_length _ _ _ _ hr

/-- `readBlocks` returns exactly the requested number of blocks. -/
theorem RabbitBlob.readBlocks_length (n : Nat) : ∀ (b : RabbitBlob) (blks : List (List Nat))
    (b1 : RabbitBlob), b.readBlocks n = .ok (blks, b1) → blks.length = n := by
  induction n with
  | zero =>
    intro b blks b1 h
    unfold RabbitBlob.readBlocks at h
    injection h with h1
    cases h1
    rfl
  | succ n ih =>
    intro b blks b1 h
    unfold RabbitBlob.readBlocks at h
    split at h
    · exact absurd h (by simp)
    · split at h
      · exact absurd h (by simp)
      · split at h
        · exact absurd h (by simp)
        · split at h
          · exact absurd h (by simp)
          · rename_i c3 hb
            simp only [Except.ok.injEq, Prod.mk.injEq] at h
            obtain ⟨h1, h2⟩ := h
            subst h1
            simp [ih _ _ _ hb]

/-- The reassembly loop, run for the true block count, concatenates the blocks
in reverse encounter order. -/
theorem appendReversedN_flatten (blks : List (List Nat)) :
    appendReversedN blks.length blks = blks.reverse.flatten := by
  have aux : ∀ k, k ≤ blks.length →
      (List.range k).foldl (fun acc i => acc ++ blks.getD (blks.length - i - 1) []) []
        = ((blks.drop (blks.length - k)).reverse).flatten := by
    intro k
    induction k with
    | zero => simp
    | succ k ih =>
      intro hk
      rw [List.range_succ, List.foldl_append]
      rw [ih (by omega)]
      simp only [List.foldl_cons, List.foldl_nil]
      have hlt : blks.length - (k + 1) < blks.length := by omega
      have harith : blks.length - (k + 1) + 1 = blks.length - k := by omega
      have hdrop : blks.drop (blks.length - (k + 1))
          = blks.getD (blks.length - (k + 1)) [] :: blks.drop (blks.length - k) := by
        rw [List.getD_eq_getElem blks [] hlt, ← harith]
        exact List.drop_eq_getElem_cons hlt
      rw [hdrop, List.reverse_cons, List.flatten_append]
      have hidx : blks.length - k - 1 = blks.length - (k + 1) := by omega
      simp [hidx]
  have h := aux blks.length (Nat.le_refl _)
  simpa [appendReversedN] using h

/-- An error in the first pending record aborts the whole scan with that
error. -/
theorem RabbitBlob.scanLoop_error_of_step (fuel : Nat) (rb : RabbitBlob) (e : ScanErr)
    (hpos : rb.pos < rb.data.length) (hstep : rb.scanStep = .error e) :
    RabbitBlob.scanLoop (fuel + 1) rb = .error e := by
  unfold RabbitBlob.scanLoop
  rw [if_pos hpos, hstep]

/-- `Count()` is the identity on counts that are at least one. -/
theorem Statistic.Count_eq_of_one_le (s : Statistic) (h : 1 ≤ s.count) : s.Count = s.count := by
  unfold Statistic.Count
  split <;> omega

/-- `Count()` never returns less than one. -/
theorem Statistic.one_le_Count (s : Statistic) : 1 ≤ s.Count := by
  unfold Statistic.Count
  split <;> omega

/-! ## Claims -/

/-- **C4.** The spec (and the claim) take `u32` to be a four-byte read that
fails with *OutOfBounds* only when fewer than four bytes remain.  The source
instead slices `data[pos:pos+8]`, so a buffer holding exactly the four needed
bytes makes `ReadUInt32` fail; with eight bytes available it does return the
big-endian value of the first four and advances the cursor by four. -/
theorem c4_readUInt32_slices_eight_bytes :
    RabbitBlob.ReadUInt32 { data := [0, 0, 0, 42], pos := 0, name := "b", useLen := false }
      = .error .outOfBounds
    ∧ (0 : Nat) + 4 ≤ ([0, 0, 0, 42] : List Nat).length
    ∧ RabbitBlob.ReadUInt32 { data := [0, 0, 0, 42, 9, 9, 9, 9], pos := 0, name := "b", useLen := false }
      = .ok (42, { data := [0, 0, 0, 42, 9, 9, 9, 9], pos := 4, name := "b", useLen := false }) :=
  ⟨rfl, by decide, rfl⟩

/-- **C9.** `IsPush` is `msg.Data[0] != 'i'`: on a message with a non-empty
body it decides push-ness by the first byte, but on an empty body the index
expression faults (Go runtime panic), it is *not* defined as non-push. -/
theorem c9_isPush_faults_on_empty_body :
    RabbitMessage.IsPush { Queue := [], Data := [], Length := 0, Position := 0 } = none
    ∧ RabbitMessage.IsPush { Queue := [], Data := [105], Length := 1, Position := 0 } = some false
    ∧ RabbitMessage.IsPush { Queue := [], Data := [72], Length := 1, Position := 0 } = some true :=
  ⟨rfl, rfl, rfl⟩

/-- **C10.** A statistic holding no recorded values (the zero state: `count = 0`
and unset bounds): `Count()` is 1, `Minimum()`/`Maximum()` fall back to the
`sum` field, `Average()` is `sum`, and `Join`-ing such a statistic into any
receiver grows the receiver's `count` by exactly one. -/
theorem c10_empty_statistic (e : Statistic) (h0 : e.count = 0)
    (hmin : e.min = none) (hmax : e.max = none) :
    e.Count = 1 ∧ e.Minimum = e.sum ∧ e.Maximum = e.sum ∧ e.Average = (e.sum : ℚ)
    ∧ ∀ s : Statistic, (s.Join e).count = s.count + 1 := by
  refine ⟨?_, ?_, ?_, ?_, ?_⟩
  · simp [Statistic.Count, h0]
  · simp [Statistic.Minimum, hmin]
  · simp [Statistic.Maximum, hmax]
  · simp [Statistic.Average, Statistic.Count, h0]
  · intro s
    show s.count + e.Count = s.count + 1
    simp [Statistic.Count, h0]

/-- A concrete empty statistic. -/
def statEmpty7 : Statistic := { Name := "e", count := 0, messages := 0, sum := 7, min := none, max := none }

/-- A concrete non-empty statistic. -/
def statSome : Statistic := { Name := "s", count := 3, messages := 4, sum := 10, min := some 2, max := some 6 }

/-- Witness for C10 at `statEmpty7` and `statSome`. -/
theorem c10_empty_statistic_witness :
    statEmpty7.count = 0 ∧ statEmpty7.min = none ∧ statEmpty7.max = none
    ∧ statEmpty7.Count = 1 ∧ statEmpty7.Minimum = statEmpty7.sum
    ∧ (statSome.Join statEmpty7).count = statSome.count + 1 := by
  have h := c10_empty_statistic statEmpty7 rfl rfl rfl
  exact ⟨rfl, rfl, rfl, h.1, h.2.1, h.2.2.2.2 statSome⟩

/-- An empty-count statistic used against C8. -/
def statA0 : Statistic := { Name := "a", count := 0, messages := 0, sum := 0, min := none, max := none }

/-- A count-five statistic used against C8. -/
def statB5 : Statistic := { Name := "a", count := 5, messages := 0, sum := 0, min := none, max := none }

/-- **C8, counterexample.**  `Join` is *not* commutative on the `count`
component: joining a count-5 statistic into an empty one gives count 5, while
the opposite order gives count 6, because `Join` adds the clamped accessor
`other.Count()` (never less than one) rather than the raw field. -/
theorem c8_counterexample_count_not_commutative :
    (statA0.Join statB5).count ≠ (statB5.Join statA0).count := by decide

/-- **C8, amended.**  `Join` is commutative and associative on the `messages`
and `sum` components unconditionally, and on the `count` component whenever
the operands' counts are at least one; for every statistic
`average = sum / max(count, 1)`; and the bounds update is monoidal: with a
non-empty receiver whose bounds are set, the joined minimum/maximum are the
smaller/larger of the two accessors, while an empty receiver (`count = 0`)
inherits the other operand's bounds. -/
theorem c8_join_monoid_amended :
    (∀ a b : Statistic, (a.Join b).messages = (b.Join a).messages
       ∧ (a.Join b).sum = (b.Join a).sum)
    ∧ (∀ a b c : Statistic,
        ((a.Join b).Join c).messages = (a.Join (b.Join c)).messages
        ∧ ((a.Join b).Join c).sum = (a.Join (b.Join c)).sum)
    ∧ (∀ a b : Statistic, 1 ≤ a.count → 1 ≤ b.count →
        (a.Join b).count = (b.Join a).count)
    ∧ (∀ a b c : Statistic, 1 ≤ a.count → 1 ≤ b.count → 1 ≤ c.count →
        ((a.Join b).Join c).count = (a.Join (b.Join c)).count)
    ∧ (∀ s : Statistic, s.Average = (s.sum : ℚ) / ((max s.count 1 : Int) : ℚ))
    ∧ (∀ (a b : Statistic) (m M : Int), a.count ≠ 0 → a.min = some m → a.max = some M →
        (a.Join b).Minimum = min a.Minimum b.Minimum
        ∧ (a.Join b).Maximum = max a.Maximum b.Maximum)
    ∧ (∀ a b : Statistic, a.count = 0 →
        (a.Join b).Minimum = b.Minimum ∧ (a.Join b).Maximum = b.Maximum) := by
  refine ⟨?_, ?_, ?_, ?_, ?_, ?_, ?_⟩
  · intro a b
    constructor
    · show a.messages + b.messages = b.messages + a.messages
      omega
    · show a.sum + b.sum = b.sum + a.sum
      omega
  · intro a b c
    constructor
    · show (a.messages + b.messages) + c.messages = a.messages + (b.messages + c.messages)
      omega
    · show (a.sum + b.sum) + c.sum = a.sum + (b.sum + c.sum)
      omega
  · intro a b ha hb
    show a.count + b.Count = b.count + a.Count
    rw [Statistic.Count_eq_of_one_le a ha, Statistic.Count_eq_of_one_le b hb]
    omega
  · intro a b c ha hb hc
    have hbc : (1 : Int) ≤ (b.Join c).count := by
      show (1 : Int) ≤ b.count + c.Count
      have := Statistic.one_le_Count c
      omega
    show (a.count + b.Count) + c.Count = a.count + (b.Join c).Count
    rw [Statistic.Count_eq_of_one_le _ hbc]
    show (a.count + b.Count) + c.Count = a.count + (b.count + c.Count)
    rw [Statistic.Count_eq_of_one_le b hb]
    omega
  · intro s
    have h : s.Count = max s.count 1 := by
      unfold Statistic.Count
      rcases le_or_lt s.count 1 with hle | hlt
      · rw [if_pos hle, max_eq_right hle]
      · rw [if_neg (not_le.mpr hlt), max_eq_left hlt.le]
    unfold Statistic.Average
    rw [h]
  · intro a b m M hc hm hM
    constructor
    · have expand : (a.Join b).Minimum
          = (if a.count = 0 ∨ b.Minimum < a.Minimum then some b.Minimum else a.min).getD
              (a.sum + b.sum) := rfl
      rw [expand]
      by_cases hlt : b.Minimum < a.Minimum
      · rw [if_pos (Or.inr hlt), Option.getD_some, min_eq_right hlt.le]
      · have hni : ¬(a.count = 0 ∨ b.Minimum < a.Minimum) := by
          push_neg
          exact ⟨hc, not_lt.mp hlt⟩
        have haMin : a.Minimum = m := by simp [Statistic.Minimum, hm]
        rw [if_neg hni, hm, Option.getD_some, min_eq_left (not_lt.mp hlt), haMin]
    · have expand : (a.Join b).Maximum
          = (if a.count = 0 ∨ b.Maximum > a.Maximum then some b.Maximum else a.max).getD
              (a.sum + b.sum) := rfl
      rw [expand]
      by_cases hgt : b.Maximum > a.Maximum
      · rw [if_pos (Or.inr hgt), Option.getD_some, max_eq_right hgt.le]
      · have hni : ¬(a.count = 0 ∨ b.Maximum > a.Maximum) := by
          push_neg
          exact ⟨hc, not_lt.mp hgt⟩
        have haMax : a.Maximum = M := by simp [Statistic.Maximum, hM]
        rw [if_neg hni, hM, Option.getD_some, max_eq_left (not_lt.mp hgt), haMax]
  · intro a b h0
    constructor
    · have expand : (a.Join b).Minimum
          = (if a.count = 0 ∨ b.Minimum < a.Minimum then some b.Minimum else a.min).getD
              (a.sum + b.sum) := rfl
      rw [expand, if_pos (Or.inl h0), Option.getD_some]
    · have expand : (a.Join b).Maximum
          = (if a.count = 0 ∨ b.Maximum > a.Maximum then some b.Maximum else a.max).getD
              (a.sum + b.sum) := rfl
      rw [expand, if_pos (Or.inl h0), Option.getD_some]

/-- A second non-empty statistic for the C8 witness. -/
def statQ1 : Statistic := { Name := "q", count := 1, messages := 1, sum := 5, min := some 5, max := some 5 }

/-- Witness for the amended C8 at `statSome` and `statQ1`. -/
theorem c8_join_monoid_amended_witness :
    (1 : Int) ≤ statSome.count ∧ (1 : Int) ≤ statQ1.count ∧ statSome.min = some 2
    ∧ (statSome.Join statQ1).count = (statQ1.Join statSome).count
    ∧ (statSome.Join statQ1).Minimum = min statSome.Minimum statQ1.Minimum := by
  refine ⟨by decide, by decide, rfl, ?_, ?_⟩
  · exact c8_join_monoid_amended.2.2.1 statSome statQ1 (by decide) (by decide)
  · exact (c8_join_monoid_amended.2.2.2.2.2.1 statSome statQ1 2 6 (by decide) rfl rfl).1

/-- `filepath.Ext`'s backward walk, run over characters that are neither a dot
nor a path separator, stops at the first dot and returns it together with
everything accumulated so far. -/
theorem extLoop_through (w : List Char) : ∀ (acc rest : List Char),
    '.' ∉ w → '/' ∉ w → extLoop (w ++ '.' :: rest) acc = '.' :: (w.reverse ++ acc) := by
  induction w with
  | nil =>
    intro acc rest _ _
    simp [extLoop]
  | cons c w ih =>
    intro acc rest hdot hslash
    have hc1 : ¬(c = '/') := fun hcc => hslash (by simp [hcc])
    have hc2 : ¬(c = '.') := fun hcc => hdot (by simp [hcc])
    simp only [List.cons_append, extLoop]
    rw [if_neg hc1, if_neg hc2]
    simp only [List.append_eq]
    rw [ih (c :: acc) rest (fun hm => hdot (List.mem_cons_of_mem _ hm))
      (fun hm => hslash (List.mem_cons_of_mem _ hm))]
    simp

/-- **C3, counterexample.**  The claim says a file with an extension other than
`.rdq`/`.idx` defaults to *framed*; `ReadRabbitFile` computes the flag as
`strings.HasSuffix(fileName, ".rdq")`, so a `.bin` file is *unframed*. -/
theorem c3_counterexample_bin_is_unframed :
    (ReadRabbitFile "data.bin" []).blob.useLen = false := rfl

/-- **C3, amended.**  `ReadRabbitFile` sets framed exactly when the file name
ends in `.rdq` (so `.idx` and every other extension are unframed), and the
declared type of a file named `<stem>.<ext>` (with a dot-free, slash-free
extension) is the extension without the leading dot. -/
theorem c3_framing_from_extension_amended :
    (∀ stem : List Char, useLenOf (stem ++ rdqSuffix) = true)
    ∧ (∀ stem : List Char, useLenOf (stem ++ idxSuffix) = false)
    ∧ (∀ name : List Char, name.drop (name.length - 4) ≠ rdqSuffix → useLenOf name = false)
    ∧ (∀ fileName : String, (ReadRabbitFile fileName []).blob.useLen = useLenOf fileName.data)
    ∧ (∀ (fileName : String) (stem ext1 : List Char), fileName.data = stem ++ '.' :: ext1 →
        '.' ∉ ext1 → '/' ∉ ext1 → (ReadRabbitFile fileName []).Type' = ext1) := by
  refine ⟨?_, ?_, ?_, fun _ => rfl, ?_⟩
  · intro stem
    unfold useLenOf hasSuffixGo
    rw [show rdqSuffix.length = 4 from rfl]
    have hlen : (stem ++ rdqSuffix).length = stem.length + 4 := by simp [rdqSuffix]
    rw [hlen]
    have h4 : stem.length + 4 - 4 = stem.length := by omega
    rw [h4, List.drop_left stem rdqSuffix]
    simp
  · intro stem
    unfold useLenOf hasSuffixGo
    rw [show rdqSuffix.length = 4 from rfl]
    have hlen : (stem ++ idxSuffix).length = stem.length + 4 := by simp [idxSuffix]
    rw [hlen]
    have h4 : stem.length + 4 - 4 = stem.length := by omega
    rw [h4, List.drop_left stem idxSuffix]
    simp [idxSuffix, rdqSuffix]
  · intro name h
    unfold useLenOf hasSuffixGo
    rw [show rdqSuffix.length = 4 from rfl]
    simp [h]
  · intro fileName stem ext1 hfn hdot hslash
    show trimPrefixGo (extGo fileName.data) ['.'] = ext1
    rw [hfn]
    unfold extGo
    have hrev : (stem ++ '.' :: ext1).reverse = ext1.reverse ++ '.' :: stem.reverse := by
      rw [List.reverse_append, List.reverse_cons]
      simp
    rw [hrev]
    rw [extLoop_through ext1.reverse [] stem.reverse
      (by simpa [List.mem_reverse] using hdot) (by simpa [List.mem_reverse] using hslash)]
    simp [trimPrefixGo, seqIsPre]

/-- The characters of `"a.bin"`. -/
def aBinChars : List Char := ['a', '.', 'b', 'i', 'n']

/-- Witness for the amended C3 at concrete file names. -/
theorem c3_framing_from_extension_amended_witness :
    useLenOf (['a'] ++ rdqSuffix) = true
    ∧ useLenOf (['a'] ++ idxSuffix) = false
    ∧ (aBinChars.drop (aBinChars.length - 4) ≠ rdqSuffix ∧ useLenOf aBinChars = false)
    ∧ ("a.bin".data = ['a'] ++ '.' :: ['b', 'i', 'n']
        ∧ (ReadRabbitFile "a.bin" []).Type' = ['b', 'i', 'n']) := by
  refine ⟨?_, ?_, ⟨by decide, ?_⟩, ⟨by decide, ?_⟩⟩
  · exact c3_framing_from_extension_amended.1 ['a']
  · exact c3_framing_from_extension_amended.2.1 ['a']
  · exact c3_framing_from_extension_amended.2.2.1 aBinChars (by decide)
  · exact c3_framing_from_extension_amended.2.2.2.2 "a.bin" ['a'] ['b', 'i', 'n']
      (by decide) (by decide) (by decide)

/-- `AssertByte` on a mismatching in-bounds byte raises `UnexpectedByte`
carrying the expected byte, the byte found, and its offset. -/
theorem RabbitBlob.AssertByte_error (rb : RabbitBlob) (mustBe : Nat)
    (hpos : rb.pos < rb.data.length) (hbad : rb.data.getD rb.pos 0 ≠ mustBe) :
    rb.AssertByte mustBe = .error (.unexpectedByte mustBe (rb.data.getD rb.pos 0) rb.pos) := by
  unfold RabbitBlob.AssertByte RabbitBlob.ReadBytes
  rw [if_pos (by omega)]
  have htake : (rb.data.drop rb.pos).take 1 = [rb.data.getD rb.pos 0] := by
    rw [List.drop_eq_getElem_cons hpos, List.getD_eq_getElem rb.data 0 hpos]
    rfl
  rw [htake]
  rw [List.getD_eq_getElem?_getD] at hbad
  simp [hbad]

/-- **C2, amended.**  In framed mode, when the byte following the
length-delimited blob is in bounds but differs from `0xFF`, `AssertByte`
raises `UnexpectedByte` and the whole file scan aborts with that error — the
mismatch is not a logged warning and scanning does not continue (only the
superseded C# revision of this program warns and continues). -/
theorem c2_bad_marker_aborts_scan (rb rb1 rb2 : RabbitBlob) (len64 : Nat)
    (inner : List Nat) (fuel : Nat)
    (hframed : rb.useLen = true)
    (hlen : rb.ReadUInt64 = .ok (len64, rb1))
    (hbytes : rb1.ReadBytes len64 = .ok (inner, rb2))
    (hposIn : rb2.pos < rb2.data.length)
    (hbad : rb2.data.getD rb2.pos 0 ≠ 255)
    (hloop : rb.pos < rb.data.length) :
    RabbitBlob.scanLoop (fuel + 1) rb
      = .error (.unexpectedByte 255 (rb2.data.getD rb2.pos 0) rb2.pos) := by
  have hassert := RabbitBlob.AssertByte_error rb2 255 hposIn hbad
  have hstep : rb.scanStep = .error (.unexpectedByte 255 (rb2.data.getD rb2.pos 0) rb2.pos) := by
    unfold RabbitBlob.scanStep
    simp [hframed, hlen, hbytes, hassert]
  exact RabbitBlob.scanLoop_error_of_step fuel rb _ hloop hstep

/-- **C2, counterexample.**  On the concrete framed file whose trailing byte is
`0xFE`, the scan does not warn-and-continue: it aborts the file with
`UnexpectedByte`, emitting no message at all (the record itself is intact). -/
theorem c2_counterexample_bad_marker :
    (ReadRabbitFile "c.rdq" fileC).blob.ProcessMessages
      = .error (.unexpectedByte 255 254 65) := rfl

/-- The blob over the corrupt file `fileC`. -/
def blobC : RabbitBlob := (ReadRabbitFile "c.rdq" fileC).blob

/-- `blobC` after the outer `u64` read. -/
def blobC1 : RabbitBlob := { data := fileC, pos := 8, name := "c.rdq", useLen := true }

/-- `blobC1` after slicing the 57-byte inner blob. -/
def blobC2 : RabbitBlob := { data := fileC, pos := 65, name := "c.rdq", useLen := true }

/-- The inner blob bytes of `fileC`. -/
def innerC : List Nat := (fileC.drop 8).take 57

/-- Witness for the amended C2 at the corrupt file `fileC`. -/
theorem c2_bad_marker_aborts_scan_witness :
    blobC2.data.getD blobC2.pos 0 ≠ 255
    ∧ RabbitBlob.scanLoop (68 + 1) blobC
        = .error (.unexpectedByte 255 (blobC2.data.getD blobC2.pos 0) blobC2.pos) :=
  ⟨by decide,
   c2_bad_marker_aborts_scan blobC blobC1 blobC2 57 innerC 68
     rfl rfl rfl (by decide) (by decide) (by decide)⟩

/-- **C5, amended.**  Whenever a record parse succeeds, the emitted `Length`
field equals the body length in the *single-block* case (it is overwritten by
the block's `u32` length there), but in the *multi-block* case `Length` keeps
the value prevailing before the record body — the outer framed `u64` record
length — which counts the marker and block headers too, not the reassembled
body length. -/
theorem c5_length_field_amended (outerUseLen : Bool) (b b1 b2 : RabbitBlob)
    (msgLen0 pos : Nat) (outer : List Nat) (nbBlocks : Nat)
    (hfind : b.findAndEnter = some b1)
    (hhdr : b1.readHdr = .ok (nbBlocks, b2)) :
    (nbBlocks = 1 → ∀ (msg : RabbitMessage) (bEnd : RabbitBlob),
      RabbitBlob.parseRecord outerUseLen b msgLen0 pos outer = .ok (some (msg, bEnd)) →
      msg.Length = msg.Data.length)
    ∧ (nbBlocks ≠ 1 → ∀ (msg : RabbitMessage) (bEnd : RabbitBlob),
      RabbitBlob.parseRecord outerUseLen b msgLen0 pos outer = .ok (some (msg, bEnd)) →
      msg.Length = msgLen0) := by
  constructor
  · intro h1 msg bEnd hparse
    subst h1
    unfold RabbitBlob.parseRecord at hparse
    simp only [hfind, hhdr] at hparse
    rw [if_pos trivial] at hparse
    cases hrs : b2.readSingle with
    | error e =>
      rw [hrs] at hparse
      exact absurd hparse (by simp)
    | ok t =>
      obtain ⟨len, d, b3⟩ := t
      simp only [hrs] at hparse
      cases hq : RabbitMessage.GetQueueName
          { Queue := [], Data := d, Length := len, Position := pos } outer with
      | error e =>
        rw [hq] at hparse
        exact absurd hparse (by simp)
      | ok q =>
        simp only [hq, Except.ok.injEq, Option.some.injEq, Prod.mk.injEq] at hparse
        obtain ⟨hmsg, hbe⟩ := hparse
        subst hmsg
        exact (RabbitBlob.readSingle_length b2 len d b3 hrs).symm
  · intro h1 msg bEnd hparse
    unfold RabbitBlob.parseRecord at hparse
    simp only [hfind, hhdr] at hparse
    rw [if_neg h1] at hparse
    by_cases hu : outerUseLen = false
    · rw [if_pos hu] at hparse
      exact absurd hparse (by simp)
    · rw [if_neg hu] at hparse
      cases hrb : b2.readBlocks nbBlocks with
      | error e =>
        rw [hrb] at hparse
        exact absurd hparse (by simp)
      | ok t =>
        obtain ⟨blks, b3⟩ := t
        simp only [hrb] at hparse
        cases hq : RabbitMessage.GetQueueName
            { Queue := [], Data := appendReversedN nbBlocks blks,
              Length := msgLen0, Position := pos } outer with
        | error e =>
          rw [hq] at hparse
          exact absurd hparse (by simp)
        | ok q =>
          simp only [hq, Except.ok.injEq, Option.some.injEq, Prod.mk.injEq] at hparse
          obtain ⟨hmsg, hbe⟩ := hparse
          subst hmsg
          rfl

/-- **C5, counterexample.**  The two-block framed file `file5` produces a
message whose `Length` is 59 (the outer record length) while the reassembled
body has 2 bytes. -/
theorem c5_counterexample_multiblock_length :
    (ReadRabbitFile "f.rdq" file5).blob.ProcessMessages = .ok [msg5]
    ∧ msg5.Length = 59 ∧ msg5.Data.length = 2 ∧ msg5.Length ≠ msg5.Data.length :=
  ⟨rfl, rfl, rfl, by decide⟩

/-- The inner blob of `file5`. -/
def innerBlob5 : RabbitBlob :=
  { data := (file5.drop 8).take 59, pos := 0, name := "f.rdq", useLen := false }

/-- `innerBlob5` positioned just past the marker. -/
def innerBlob5a : RabbitBlob :=
  { data := (file5.drop 8).take 59, pos := 25, name := "f.rdq", useLen := false }

/-- `innerBlob5a` after the `'l'` byte and the block count. -/
def innerBlob5b : RabbitBlob :=
  { data := (file5.drop 8).take 59, pos := 30, name := "f.rdq", useLen := false }

/-- `innerBlob5b` after both blocks. -/
def innerBlob5c : RabbitBlob :=
  { data := (file5.drop 8).take 59, pos := 42, name := "f.rdq", useLen := false }

/-- Witness for the amended C5 at the two-block record of `file5`. -/
theorem c5_length_field_amended_witness :
    RabbitBlob.parseRecord true innerBlob5 59 0 file5 = .ok (some (msg5, innerBlob5c))
    ∧ msg5.Length = 59 :=
  ⟨rfl,
   (c5_length_field_amended true innerBlob5 innerBlob5a innerBlob5b 59 0 file5 2
     rfl rfl).2 (by decide) msg5 innerBlob5c rfl⟩

/-- **C6.**  A framed record reassembled from its blocks emits as body the
concatenation of the blocks in reverse encounter order — for blocks `A` then
`B` the body is `B ++ A` — and the body length is the sum of the block
lengths; a single-block record trivially satisfies the same shape. -/
theorem c6_reverse_reassembly :
    (∀ (b b1 b2 b3 : RabbitBlob) (msgLen0 pos : Nat) (outer : List Nat) (nbBlocks : Nat)
        (blks : List (List Nat)) (msg : RabbitMessage) (bEnd : RabbitBlob),
      b.findAndEnter = some b1 → b1.readHdr = .ok (nbBlocks, b2) → nbBlocks ≠ 1 →
      b2.readBlocks nbBlocks = .ok (blks, b3) →
      RabbitBlob.parseRecord true b msgLen0 pos outer = .ok (some (msg, bEnd)) →
      msg.Data = blks.reverse.flatten
      ∧ msg.Data.length = (blks.map List.length).sum
      ∧ (∀ A B : List Nat, blks = [A, B] → msg.Data = B ++ A))
    ∧ (∀ (b b1 b2 : RabbitBlob) (msgLen0 pos : Nat) (outer : List Nat)
        (len : Nat) (d : List Nat) (b3 : RabbitBlob) (msg : RabbitMessage) (bEnd : RabbitBlob),
      b.findAndEnter = some b1 → b1.readHdr = .ok (1, b2) →
      b2.readSingle = .ok (len, d, b3) →
      RabbitBlob.parseRecord true b msgLen0 pos outer = .ok (some (msg, bEnd)) →
      msg.Data = [d].reverse.flatten) := by
  constructor
  · intro b b1 b2 b3 msgLen0 pos outer nbBlocks blks msg bEnd hfind hhdr hne hblocks hparse
    unfold RabbitBlob.parseRecord at hparse
    simp only [hfind, hhdr] at hparse
    rw [if_neg hne, if_neg (by simp)] at hparse
    simp only [hblocks] at hparse
    split at hparse
    · exact absurd hparse (by simp)
    · rename_i q hq
      simp only [Except.ok.injEq, Option.some.injEq, Prod.mk.injEq] at hparse
      obtain ⟨hmsg, hbe⟩ := hparse
      subst hmsg
      have hl : blks.length = nbBlocks := RabbitBlob.readBlocks_length nbBlocks b2 blks b3 hblocks
      have hrev : appendReversedN nbBlocks blks = blks.reverse.flatten := by
        rw [← hl]
        exact appendReversedN_flatten blks
      refine ⟨hrev, ?_, ?_⟩
      · show (appendReversedN nbBlocks blks).length = _
        rw [hrev, List.length_flatten, List.map_reverse, List.sum_reverse]
      · intro A B hAB
        subst hAB
        show appendReversedN nbBlocks [A, B] = B ++ A
        rw [hrev]
        simp
  · intro b b1 b2 msgLen0 pos outer len d b3 msg bEnd hfind hhdr hsingle hparse
    unfold RabbitBlob.parseRecord at hparse
    simp only [hfind, hhdr] at hparse
    rw [if_pos trivial] at hparse
    simp only [hsingle] at hparse
    split at hparse
    · exact absurd hparse (by simp)
    · rename_i q hq
      simp only [Except.ok.injEq, Option.some.injEq, Prod.mk.injEq] at hparse
      obtain ⟨hmsg, hbe⟩ := hparse
      subst hmsg
      show d = [d].reverse.flatten
      simp

/-- Witness for C6 at the two-block record of `file5`: the blocks are
`"A"` then `"B"` and the emitted body is `"BA"`. -/
theorem c6_reverse_reassembly_witness :
    innerBlob5b.readBlocks 2 = .ok ([[65], [66]], innerBlob5c)
    ∧ msg5.Data = [66] ++ [65] :=
  ⟨rfl,
   (c6_reverse_reassembly.1 innerBlob5 innerBlob5a innerBlob5b innerBlob5c 59 0 file5 2
     [[65], [66]] msg5 innerBlob5c rfl rfl (by decide) rfl rfl).2.2 [65] [66] rfl⟩

/-- **C7.**  On an unframed (index) scan, a record whose block count is not 1
hits the `!rb.useLen` guard of the multi-block arm and raises
*StructureError* before reading any block; a step error aborts the whole
scan, and a scan error makes `RabbitFile.ProcessMessages` fail, so no message
is reported for the file. -/
theorem c7_idx_multiblock_rejected :
    (∀ (b b1 b2 : RabbitBlob) (msgLen0 pos : Nat) (outer : List Nat) (nbBlocks : Nat),
      b.findAndEnter = some b1 → b1.readHdr = .ok (nbBlocks, b2) → nbBlocks ≠ 1 →
      RabbitBlob.parseRecord false b msgLen0 pos outer = .error .structureError)
    ∧ (∀ rb : RabbitBlob, rb.useLen = false →
      rb.scanStep = RabbitBlob.parseRecord false rb 0 rb.pos rb.data)
    ∧ (∀ (fuel : Nat) (rb : RabbitBlob) (e : ScanErr),
      rb.pos < rb.data.length → rb.scanStep = .error e →
      RabbitBlob.scanLoop (fuel + 1) rb = .error e)
    ∧ (∀ (fileName : String) (contents : List Nat) (e : ScanErr),
      (ReadRabbitFile fileName contents).blob.ProcessMessages = .error e →
      (ReadRabbitFile fileName contents).ProcessMessages = .error e) := by
  refine ⟨?_, ?_, ?_, ?_⟩
  · intro b b1 b2 msgLen0 pos outer nbBlocks hfind hhdr hne
    unfold RabbitBlob.parseRecord
    simp only [hfind, hhdr]
    rw [if_neg hne, if_pos trivial]
  · intro rb h
    unfold RabbitBlob.scanStep
    simp [h]
  · exact fun fuel rb e h1 h2 => RabbitBlob.scanLoop_error_of_step fuel rb e h1 h2
  · intro fileName contents e h
    unfold RabbitFile.ProcessMessages
    rw [h]

/-- The blob over the malformed index file `idx4`. -/
def blobI : RabbitBlob := (ReadRabbitFile "i.idx" idx4).blob

/-- `blobI` positioned just past the marker. -/
def blobI1 : RabbitBlob := { data := idx4, pos := 25, name := "i.idx", useLen := false }

/-- `blobI1` after the `'l'` byte and the block count. -/
def blobI2 : RabbitBlob := { data := idx4, pos := 30, name := "i.idx", useLen := false }

/-- Witness for C7 at the concrete two-block index file `idx4`. -/
theorem c7_idx_multiblock_rejected_witness :
    blobI.findAndEnter = some blobI1 ∧ blobI1.readHdr = .ok (2, blobI2) ∧ (2 : Nat) ≠ 1
    ∧ RabbitBlob.parseRecord false blobI 0 0 idx4 = .error .structureError
    ∧ (ReadRabbitFile "i.idx" idx4).ProcessMessages = .error .structureError :=
  ⟨rfl, rfl, by decide,
   c7_idx_multiblock_rejected.1 blobI blobI1 blobI2 0 0 idx4 2 rfl rfl (by decide),
   c7_idx_multiblock_rejected.2.2.2 "i.idx" idx4 .structureError rfl⟩

/-- **C1.**  A per-file parse error is *not* recovered inside the worker: the
re-raised error escapes `RabbitBlob.ProcessMessages`, `RabbitFile.ProcessMessages`
and `fileHandler` (which has no `recover`), so processing a corrupt `.rdq`
file (trailing marker `0xFE`, an `UnexpectedByte` scan error) aborts the
worker before any remaining file is parsed, and the coordinator aggregates
nothing at all — instead of the aggregation over the inputs without the
corrupt file, which the claim requires and which is what processing the good
file alone produces. -/
theorem c1_parse_error_escapes_worker :
    fileHandler [("c.rdq", fileC), ("g.rdq", fileG)] = .error (.unexpectedByte 255 254 65)
    ∧ coordinate [("c.rdq", fileC), ("g.rdq", fileG)] = .error (.unexpectedByte 255 254 65)
    ∧ coordinate [("g.rdq", fileG)]
        = .ok [{ Name := "g.rdq", count := 1, messages := 1, sum := 5,
                 min := some 5, max := some 5 }] :=
  ⟨rfl, rfl, rfl⟩
